import Mathlib

/-!
Verification of the conversation-memory pattern and CLI helpers of the
Zero-To-GenAI repository.

The embedding covers:
* the conversation store and `chat` round-trip of
  `03-API-Interactions/simple_chatbot.py` (shared, per the spec, with the
  session-state flow of `05-Projects/web_chatbot.py`);
* the input-validation loop of `simple_chatbot.py`'s `main`;
* `sanitize_filename`, `research_topic` and the argument validation of
  `05-Projects/cli_researcher.py`.

The remote OpenAI completion call is modelled as an explicit capability
parameter `complete : List Turn -> Except eps String`; the `calls` field of
`ExchangeResult` records the `messages` argument of every invocation of that
capability, so theorems can speak about what was sent to the remote side.
-/

namespace ZeroToGenAI

/-- The `role` field of a message dictionary: `"system"`, `"user"` or
`"assistant"` (simple_chatbot.py lines 43-48, 69-72, 86-89). -/
inductive Role where
  | system
  | user
  | assistant
deriving DecidableEq, Repr

/-- One message dictionary of the conversation history: a role tag and a
content string (simple_chatbot.py lines 43-48). -/
structure Turn where
  role : Role
  content : String
deriving DecidableEq, Repr

/-- Result of one `chat` round-trip: the conversation history after the call
(the Python code mutates the global `conversation_history` in place; here the
post-state is returned), the list of `messages` arguments passed to the remote
completion capability during the call, and the reply (the returned assistant
text, or the propagated exception). -/
structure ExchangeResult (eps : Type) where
  history : List Turn
  calls : List (List Turn)
  reply : Except eps String
deriving Repr

/-- Embeds `chat` (simple_chatbot.py lines 51-91): append the user turn to the
history, send the ENTIRE history to the completion capability, and on success
append the assistant turn and return the assistant text.  On failure the
exception propagates and the appended user turn remains (there is no rollback).
The repeated `history ++ [user]` term mirrors that Python passes the very same
mutated `conversation_history` list to the API. -/
def exchange {eps : Type} (complete : List Turn → Except eps String)
    (history : List Turn) (userMessage : String) : ExchangeResult eps :=
  match complete (history ++ [⟨Role.user, userMessage⟩]) with
  | Except.ok assistantMessage =>
      ⟨(history ++ [⟨Role.user, userMessage⟩]) ++ [⟨Role.assistant, assistantMessage⟩],
        [history ++ [⟨Role.user, userMessage⟩]],
        Except.ok assistantMessage⟩
  | Except.error e =>
      ⟨history ++ [⟨Role.user, userMessage⟩],
        [history ++ [⟨Role.user, userMessage⟩]],
        Except.error e⟩

/-- Initialization of the conversation store (spec section 4.1
`initialize(system_prompt: optional text)`): the seeded case is the literal
initializer of `conversation_history` (simple_chatbot.py lines 43-48) and of
`st.session_state.messages` (web_chatbot.py lines 47-50); the unseeded case is
the empty sequence. -/
def initStore (systemPrompt : Option String) : List Turn :=
  match systemPrompt with
  | some s => [⟨Role.system, s⟩]
  | none => []

/-- Iterates `exchange` over a list of user inputs, threading the conversation
history, as the chat loops of both chatbots do. -/
def runExchanges {eps : Type} (complete : List Turn → Except eps String)
    (history : List Turn) : List String → List Turn
  | [] => history
  | x :: xs => runExchanges complete (exchange complete history x).history xs

/-- `true` iff the reply is a success. -/
def replyOk {eps : Type} : Except eps String → Bool
  | Except.ok _ => true
  | Except.error _ => false

/-- `true` iff every exchange in the run starting from `history` succeeds. -/
def allOk {eps : Type} (complete : List Turn → Except eps String)
    (history : List Turn) : List String → Bool
  | [] => true
  | x :: xs =>
      replyOk (exchange complete history x).reply
        && allOk complete (exchange complete history x).history xs

/-- The role pattern of `n` completed exchanges: user, assistant, user,
assistant, ... -/
def uaBlock : Nat → List Role
  | 0 => []
  | n + 1 => Role.user :: Role.assistant :: uaBlock n

/-- Python `str.strip()`: drop leading and trailing whitespace. -/
def pyStrip (s : String) : String :=
  String.mk (((s.toList.dropWhile Char.isWhitespace).reverse.dropWhile
    Char.isWhitespace).reverse)

/-- Python `str.lower()` (on the ASCII inputs the chat loop compares against). -/
def pyLower (s : String) : String :=
  String.mk (s.toList.map Char.toLower)

/-- What the chat loop did with one line of raw input. -/
inductive StepKind where
  | quit
  | emptySkip
  | showHistory
  | chatted
deriving DecidableEq, Repr

/-- Outcome of one iteration of the `main` loop of simple_chatbot.py:
the history afterwards, the remote invocations made, the branch taken, and
the reply of the `chat` call when one happened. -/
structure StepResult (eps : Type) where
  history : List Turn
  calls : List (List Turn)
  kind : StepKind
  reply : Option (Except eps String)
deriving Repr

/-- Embeds one iteration of the `main` loop (simple_chatbot.py lines
108-144): strip the raw input, break on quit commands, skip empty input,
handle the `history` command, otherwise call `chat` (whose exception, if any,
is caught and reported, leaving the mutated history in place). -/
def mainStep {eps : Type} (complete : List Turn → Except eps String)
    (history : List Turn) (rawInput : String) : StepResult eps :=
  let input := pyStrip rawInput
  if pyLower input = "quit" ∨ pyLower input = "exit" ∨ pyLower input = "q" then
    ⟨history, [], StepKind.quit, none⟩
  else if input = "" then
    ⟨history, [], StepKind.emptySkip, none⟩
  else if pyLower input = "history" then
    ⟨history, [], StepKind.showHistory, none⟩
  else
    let r := exchange complete history input
    ⟨r.history, r.calls, StepKind.chatted, some r.reply⟩

/-- The stub completion capability of the spec's testable property: replies
`"Echo: "` concatenated with the content of the last user turn of the
messages it receives (failing when there is none). -/
def echoComplete (messages : List Turn) : Except Unit String :=
  match (messages.filter (fun t => t.role == Role.user)).getLast? with
  | some t => Except.ok ("Echo: " ++ t.content)
  | none => Except.error ()

/-- The character class removed by `sanitize_filename`
(cli_researcher.py line 138, the regex `[<>:"/\\|?*]`). -/
def unsafeChars : List Char := ['<', '>', ':', '"', '/', '\\', '|', '?', '*']

/-- The pre-fallback pipeline of `sanitize_filename` (cli_researcher.py lines
137-142): remove unsafe characters, replace spaces with underscores, truncate
to 50 characters. -/
def sanitizeCore (topic : String) : String :=
  String.mk (((topic.toList.filter (fun ch => ! unsafeChars.contains ch)).map
    (fun ch => if ch = ' ' then '_' else ch)).take 50)

/-- Embeds `sanitize_filename` (cli_researcher.py lines 127-144): the
pipeline above, with the Python `or "research"` fallback when the result is
empty. -/
def sanitize_filename (topic : String) : String :=
  if sanitizeCore topic = "" then "research" else sanitizeCore topic

/-- The system prompt of cli_researcher.py (lines 49-77). -/
def SYSTEM_PROMPT : String :=
  "You are an expert researcher with deep knowledge across many fields.\n\nYour task is to provide a clear, accurate, and well-structured summary of the given topic.\n\nFollow this EXACT output format:\n\n# [Topic Name]\n\n## Summary\n[A 2-3 sentence overview of the topic]\n\n## Key Points\n- [Bullet point 1: A key fact or concept]\n- [Bullet point 2: Another important aspect]\n- [Bullet point 3: A third significant point]\n[Add more bullets if requested]\n\n## Why It Matters\n[1-2 sentences on the significance or applications of this topic]\n\n## Learn More\n[Suggest 1-2 areas for further exploration]\n\nGuidelines:\n- Be concise but informative\n- Use simple language accessible to beginners\n- Include specific facts, numbers, or examples where relevant\n- Avoid jargon unless you explain it\n"

/-- The user prompt built inside `research_topic` (cli_researcher.py lines
97-101). -/
def user_prompt (topic : String) (num_bullets : Int) : String :=
  "Research and summarize the following topic: " ++ topic
    ++ "\n\nPlease provide exactly " ++ toString num_bullets
    ++ " key bullet points in the \"Key Points\" section.\n\nMake the summary informative yet accessible to someone new to this topic."

/-- The `messages` argument of the single API call of `research_topic`
(cli_researcher.py lines 105-113). -/
def researchMessages (topic : String) (num_bullets : Int) : List Turn :=
  [⟨Role.system, SYSTEM_PROMPT⟩, ⟨Role.user, user_prompt topic num_bullets⟩]

/-- Embeds `research_topic` (cli_researcher.py lines 84-124): one API call;
the response content on success, `none` when the call raises (both `except`
arms return `None`). -/
def research_topic {eps : Type} (complete : List Turn → Except eps String)
    (topic : String) (num_bullets : Int) : Option String :=
  match complete (researchMessages topic num_bullets) with
  | Except.ok content => some content
  | Except.error _ => none

/-- Embeds `main` of cli_researcher.py (lines 230-282) up to the research
call: the list of remote invocations made, and either a fatal `sys.exit` code
or the research result text.  The bullets check (lines 238-240) runs before
any remote call; a failed research exits 1 (lines 259-261).  The markdown
export (lines 272-280) is file I/O outside the embedding. -/
def cliMain {eps : Type} (complete : List Turn → Except eps String)
    (topic : String) (bullets : Int) : List (List Turn) × Except Nat String :=
  if bullets < 1 ∨ bullets > 10 then
    ([], Except.error 1)
  else
    match research_topic complete topic bullets with
    | none => ([researchMessages topic bullets], Except.error 1)
    | some r => ([researchMessages topic bullets], Except.ok r)

/-- A stub capability that always succeeds with a fixed reply (used by
witnesses). -/
def okComplete : List Turn → Except Unit String :=
  fun _ => Except.ok "Sure!"

/-- A stub capability that always fails (used by witnesses). -/
def failComplete : List Turn → Except Unit String :=
  fun _ => Except.error ()

-- Basic facts about one `exchange` round-trip, split by the outcome of the
-- completion capability.

lemma exchange_history_ok {eps : Type} (c : List Turn → Except eps String)
    (h : List Turn) (x r : String)
    (heq : c (h ++ [⟨Role.user, x⟩]) = Except.ok r) :
    (exchange c h x).history = (h ++ [⟨Role.user, x⟩]) ++ [⟨Role.assistant, r⟩] := by
  unfold exchange
  rw [heq]

lemma exchange_reply_ok {eps : Type} (c : List Turn → Except eps String)
    (h : List Turn) (x r : String)
    (heq : c (h ++ [⟨Role.user, x⟩]) = Except.ok r) :
    (exchange c h x).reply = Except.ok r := by
  unfold exchange
  rw [heq]

lemma exchange_history_error {eps : Type} (c : List Turn → Except eps String)
    (h : List Turn) (x : String) (e : eps)
    (heq : c (h ++ [⟨Role.user, x⟩]) = Except.error e) :
    (exchange c h x).history = h ++ [⟨Role.user, x⟩] := by
  unfold exchange
  rw [heq]

lemma exchange_reply_error {eps : Type} (c : List Turn → Except eps String)
    (h : List Turn) (x : String) (e : eps)
    (heq : c (h ++ [⟨Role.user, x⟩]) = Except.error e) :
    (exchange c h x).reply = Except.error e := by
  unfold exchange
  rw [heq]

lemma uaBlock_length : ∀ n : Nat, (uaBlock n).length = 2 * n := by
  intro n
  induction n with
  | zero => rfl
  | succ k ih =>
    simp only [uaBlock, List.length_cons, ih]
    omega

-- The role sequence produced by a run in which every exchange succeeds.
lemma runExchanges_roles {eps : Type} (c : List Turn → Except eps String)
    (inputs : List String) :
    ∀ h : List Turn, allOk c h inputs = true →
      (runExchanges c h inputs).map Turn.role
        = h.map Turn.role ++ uaBlock inputs.length := by
  induction inputs with
  | nil =>
    intro h _
    simp [runExchanges, uaBlock]
  | cons x xs ih =>
    intro h hall
    simp only [allOk, Bool.and_eq_true] at hall
    obtain ⟨hhead, hrest⟩ := hall
    cases heq : c (h ++ [⟨Role.user, x⟩]) with
    | error e =>
      rw [exchange_reply_error c h x e heq] at hhead
      simp [replyOk] at hhead
    | ok r =>
      simp only [runExchanges]
      rw [exchange_history_ok c h x r heq] at hrest ⊢
      rw [ih _ hrest]
      simp [uaBlock, List.append_assoc]

-- Any exchange (successful or failed) only appends non-system turns.
lemma exchange_no_system {eps : Type} (c : List Turn → Except eps String)
    (h : List Turn) (x : String) :
    ∃ rest, (exchange c h x).history = h ++ rest
      ∧ ∀ t ∈ rest, t.role ≠ Role.system := by
  cases heq : c (h ++ [⟨Role.user, x⟩]) with
  | ok r =>
    refine ⟨[⟨Role.user, x⟩, ⟨Role.assistant, r⟩], ?_, ?_⟩
    · rw [exchange_history_ok c h x r heq]
      simp
    · intro t ht
      simp only [List.mem_cons, List.mem_singleton, List.not_mem_nil, or_false] at ht
      rcases ht with h1 | h1 <;> subst h1 <;> simp
  | error e =>
    refine ⟨[⟨Role.user, x⟩], exchange_history_error c h x e heq, ?_⟩
    intro t ht
    simp only [List.mem_singleton] at ht
    subst ht
    simp

-- A whole run only appends non-system turns after the initial history.
lemma runExchanges_no_system {eps : Type} (c : List Turn → Except eps String)
    (inputs : List String) :
    ∀ h : List Turn, ∃ rest, runExchanges c h inputs = h ++ rest
      ∧ ∀ t ∈ rest, t.role ≠ Role.system := by
  induction inputs with
  | nil =>
    intro h
    exact ⟨[], by simp [runExchanges], by simp⟩
  | cons x xs ih =>
    intro h
    obtain ⟨r1, hr1, hs1⟩ := exchange_no_system c h x
    obtain ⟨r2, hr2, hs2⟩ := ih (exchange c h x).history
    refine ⟨r1 ++ r2, ?_, ?_⟩
    · simp only [runExchanges]
      rw [hr2, hr1, List.append_assoc]
    · intro t ht
      rcases List.mem_append.mp ht with h1 | h1
      · exact hs1 t h1
      · exact hs2 t h1

/-- C1: every call to `chat` invokes the remote completion capability exactly
once, and the `messages` argument of that invocation is the entire current
ordered history — the leading system turn and all prior turns, with the new
user turn already appended at the end — not just the latest turn. -/
theorem full_history_sent {eps : Type} (complete : List Turn → Except eps String)
    (history : List Turn) (x : String) :
    (exchange complete history x).calls = [history ++ [⟨Role.user, x⟩]] := by
  cases heq : complete (history ++ [⟨Role.user, x⟩]) <;> simp [exchange, heq]

/-- C2: after any sequence of N successful exchanges from an initial store
(optionally seeded with one system turn), the turn count equals
(1 if seeded else 0) + 2N, and after the leading system turn the roles are
exactly user, assistant, user, assistant, ... -/
theorem conversation_growth_and_alternation {eps : Type}
    (complete : List Turn → Except eps String) (sysPrompt : Option String)
    (inputs : List String)
    (hall : allOk complete (initStore sysPrompt) inputs = true) :
    (runExchanges complete (initStore sysPrompt) inputs).length
        = (if sysPrompt.isSome then 1 else 0) + 2 * inputs.length
      ∧ ((runExchanges complete (initStore sysPrompt) inputs).drop
            (initStore sysPrompt).length).map Turn.role = uaBlock inputs.length := by
  have hroles := runExchanges_roles complete inputs (initStore sysPrompt) hall
  constructor
  · have hlen := congrArg List.length hroles
    rw [List.length_map, List.length_append, List.length_map, uaBlock_length] at hlen
    rw [hlen]
    cases sysPrompt <;> simp [initStore]
  · rw [List.map_drop, hroles,
      show (initStore sysPrompt).length
          = ((initStore sysPrompt).map Turn.role).length from
        (List.length_map _ _).symm,
      List.drop_left]

/-- Witness for C2 at a concrete store, capability and input list. -/
theorem conversation_growth_and_alternation_witness :
    (runExchanges okComplete (initStore (some "S")) ["a", "b"]).length
        = (if (some "S").isSome then 1 else 0) + 2 * (["a", "b"] : List String).length
      ∧ ((runExchanges okComplete (initStore (some "S")) ["a", "b"]).drop
            (initStore (some "S")).length).map Turn.role
          = uaBlock (["a", "b"] : List String).length :=
  conversation_growth_and_alternation okComplete (some "S") ["a", "b"] rfl

/-- C3: when the remote completion call fails during an exchange, the history
afterwards is exactly the old history with the user turn appended (so it ends
with that user turn: it is retained, no assistant turn is appended, and there
is no rollback), and the error is propagated to the caller. -/
theorem failure_keeps_user_turn {eps : Type}
    (complete : List Turn → Except eps String) (history : List Turn)
    (x : String) (e : eps)
    (hfail : complete (history ++ [⟨Role.user, x⟩]) = Except.error e) :
    (exchange complete history x).history = history ++ [⟨Role.user, x⟩]
      ∧ (exchange complete history x).history.getLast? = some ⟨Role.user, x⟩
      ∧ (exchange complete history x).reply = Except.error e := by
  refine ⟨exchange_history_error complete history x e hfail, ?_,
    exchange_reply_error complete history x e hfail⟩
  rw [exchange_history_error complete history x e hfail]
  exact List.getLast?_concat _

/-- Witness for C3 at a concrete failing capability. -/
theorem failure_keeps_user_turn_witness :
    (exchange failComplete [] "x").history = [] ++ [⟨Role.user, "x"⟩]
      ∧ (exchange failComplete [] "x").history.getLast? = some ⟨Role.user, "x"⟩
      ∧ (exchange failComplete [] "x").reply = Except.error () :=
  failure_keeps_user_turn failComplete [] "x" () rfl

/-- C4: in every reachable store state (initialization, optionally seeded
with a system prompt, followed by any sequence of exchanges, successful or
failed), a seeded store keeps its system turn as the first element, and every
system turn sits at index 0 (so at most one exists). -/
theorem system_turn_invariant {eps : Type}
    (complete : List Turn → Except eps String) (sysPrompt : Option String)
    (inputs : List String) :
    (∀ s, sysPrompt = some s →
        (runExchanges complete (initStore sysPrompt) inputs).head?
          = some ⟨Role.system, s⟩)
      ∧ ∀ i t, (runExchanges complete (initStore sysPrompt) inputs).get? i = some t →
          t.role = Role.system → i = 0 := by
  obtain ⟨rest, hrun, hs⟩ :=
    runExchanges_no_system complete inputs (initStore sysPrompt)
  constructor
  · intro s hsome
    subst hsome
    rw [hrun]
    rfl
  · intro i t hget hrole
    cases hsp : sysPrompt with
    | none =>
      exfalso
      subst hsp
      rw [hrun] at hget
      exact hs t (List.get?_mem hget) hrole
    | some s =>
      subst hsp
      cases i with
      | zero => rfl
      | succ j =>
        exfalso
        rw [hrun] at hget
        have hget2 : rest.get? j = some t := by
          simpa [initStore, List.get?_cons_succ] using hget
        exact hs t (List.get?_mem hget2) hrole

/-- Witness for C4 at a concrete seeded store and one exchange. -/
theorem system_turn_invariant_witness :
    (runExchanges okComplete (initStore (some "S")) ["a"]).head?
        = some ⟨Role.system, "S"⟩
      ∧ (0 : Nat) = 0 :=
  ⟨(system_turn_invariant okComplete (some "S") ["a"]).1 "S" rfl,
    (system_turn_invariant okComplete (some "S") ["a"]).2 0 ⟨Role.system, "S"⟩ rfl rfl⟩

/-- C5: with the echo stub capability, exchanging "hello" and then "world"
from a freshly initialized store (with or without a system turn) yields
exactly [system?, user hello, assistant Echo hello, user world, assistant
Echo world], and each exchange returns the corresponding assistant text. -/
theorem echo_stub_run (sysPrompt : Option String) :
    runExchanges echoComplete (initStore sysPrompt) ["hello", "world"]
        = initStore sysPrompt
            ++ [⟨Role.user, "hello"⟩, ⟨Role.assistant, "Echo: hello"⟩,
                ⟨Role.user, "world"⟩, ⟨Role.assistant, "Echo: world"⟩]
      ∧ (exchange echoComplete (initStore sysPrompt) "hello").reply
          = Except.ok "Echo: hello"
      ∧ (exchange echoComplete
            (exchange echoComplete (initStore sysPrompt) "hello").history
            "world").reply = Except.ok "Echo: world" := by
  cases sysPrompt with
  | none => exact ⟨rfl, rfl, rfl⟩
  | some s => exact ⟨rfl, rfl, rfl⟩

/-- C6: an empty raw input is rejected by the chat loop before reaching
`chat`: the history is unchanged and the remote capability is never
invoked. -/
theorem empty_input_rejected {eps : Type}
    (complete : List Turn → Except eps String) (history : List Turn) :
    mainStep complete history "" = ⟨history, [], StepKind.emptySkip, none⟩ := rfl

/-- C7: after every successful exchange the history ends with an assistant
turn carrying the returned text, which is non-empty whenever the completion
capability honours its interface contract of returning a (non-empty) text
turn. -/
theorem successful_exchange_ends_assistant {eps : Type}
    (complete : List Turn → Except eps String)
    (hne : ∀ ms r, complete ms = Except.ok r → r ≠ "")
    (history : List Turn) (x r : String)
    (hok : (exchange complete history x).reply = Except.ok r) :
    (exchange complete history x).history.getLast? = some ⟨Role.assistant, r⟩
      ∧ r ≠ "" := by
  cases heq : complete (history ++ [⟨Role.user, x⟩]) with
  | error e =>
    rw [exchange_reply_error complete history x e heq] at hok
    exact absurd hok (by simp)
  | ok r0 =>
    rw [exchange_reply_ok complete history x r0 heq] at hok
    injection hok with hr
    subst hr
    refine ⟨?_, hne _ _ heq⟩
    rw [exchange_history_ok complete history x r0 heq]
    exact List.getLast?_concat _

/-- Witness for C7 at a concrete conforming capability. -/
theorem successful_exchange_ends_assistant_witness :
    (exchange okComplete [] "hi").history.getLast?
        = some ⟨Role.assistant, "Sure!"⟩
      ∧ "Sure!" ≠ "" := by
  have hne : ∀ ms r, okComplete ms = Except.ok r → r ≠ "" := by
    intro ms r hr
    simp only [okComplete] at hr
    injection hr with hr2
    subst hr2
    decide
  exact successful_exchange_ends_assistant okComplete hne [] "hi" "Sure!" rfl

/-- C8: the topic "C++ vs C#: A/B?" sanitizes to a filename with none of the
unsafe characters, every space replaced by an underscore, and length at most
50 before the extension is added. -/
theorem sanitize_topic_example :
    sanitize_filename "C++ vs C#: A/B?" = "C++_vs_C#_AB"
      ∧ (∀ ch ∈ (sanitize_filename "C++ vs C#: A/B?").toList, ch ∉ unsafeChars)
      ∧ ' ' ∉ (sanitize_filename "C++ vs C#: A/B?").toList
      ∧ (sanitize_filename "C++ vs C#: A/B?").length ≤ 50 := by
  decide

/-- C9: any bullets value outside [1, 10] makes the CLI exit fatally (code 1)
during argument validation, with no invocation of the remote completion
capability. -/
theorem bullets_out_of_range_no_call {eps : Type}
    (complete : List Turn → Except eps String) (topic : String) (bullets : Int)
    (hrange : bullets < 1 ∨ bullets > 10) :
    cliMain complete topic bullets = ([], Except.error 1) := by
  unfold cliMain
  rw [if_pos hrange]

/-- Witness for C9 at a concrete out-of-range bullets value. -/
theorem bullets_out_of_range_no_call_witness :
    cliMain failComplete "Black Holes" 0 = ([], Except.error 1) :=
  bullets_out_of_range_no_call failComplete "Black Holes" 0 (Or.inl (by decide))

/-- C10: `sanitize_filename` never returns the empty string; whenever the
stripping/replacing/truncating pipeline yields the empty string, the fallback
"research" is returned. -/
theorem sanitize_filename_nonempty (topic : String) :
    sanitize_filename topic ≠ ""
      ∧ (sanitizeCore topic = "" → sanitize_filename topic = "research") := by
  unfold sanitize_filename
  by_cases hc : sanitizeCore topic = ""
  · rw [if_pos hc]
    exact ⟨by decide, fun _ => rfl⟩
  · rw [if_neg hc]
    exact ⟨hc, fun hcontra => absurd hcontra hc⟩

/-- Witness for C10 at a topic made only of unsafe characters. -/
theorem sanitize_filename_nonempty_witness :
    sanitize_filename "???" = "research" :=
  (sanitize_filename_nonempty "???").2 (by decide)

end ZeroToGenAI
